import Mathlib

/-!
Shallow embedding of the lilliput example resize pipeline
(`src/examples/main.go`): a per-invocation model of `resize` and
`readRemoteURL`, with the external collaborators (file system, HTTP
client, lilliput codec engine) represented as per-invocation oracles in
an environment, and the observable side effects recorded as an event
trace.
-/

namespace LilliputExample

/-- Raw byte buffers (`[]byte` in Go) as lists of byte values. -/
abbrev Bytes := List Nat

/-- Result of a fallible Go call: `(value, err)` with exactly one side set. -/
inductive Res (α : Type) where
  | ok (a : α)
  | err (msg : String)
deriving DecidableEq, Repr

/-- Outcome of `ioutil.ReadAll(resp.Body)`: either the full body bytes
(read to EOF, i.e. the body is drained) or a read error partway. -/
inductive BodyReadOutcome where
  | ok (bytes : Bytes)
  | fail (msg : String)
deriving DecidableEq, Repr

/-- An `*http.Response` as the pipeline can observe it: the status code
and what reading the body would yield. -/
structure HttpResponse where
  statusCode : Nat
  body : BodyReadOutcome
deriving DecidableEq, Repr

/-- The possible outcomes of `client.Get(url)` per the `net/http`
contract: a transport error with a nil response, an error together with
a non-nil response (e.g. a redirect-policy failure), or a completed
request with a nil error — note a completed request carries any status
code, including non-2xx ones, with a nil error. -/
inductive FetchOutcome where
  | transportError (msg : String)
  | errorWithResponse (resp : HttpResponse) (msg : String)
  | success (resp : HttpResponse)
deriving DecidableEq, Repr

/-- `lilliput.ImageOps` resize method selector. -/
inductive ResizeMethod where
  | fit
  | resize
deriving DecidableEq, Repr

/-- Keys of the lilliput encode-option maps (`lilliput.JpegQuality`,
`lilliput.PngCompression`, `lilliput.WebpQuality`). -/
inductive OptionKey where
  | jpegQuality
  | pngCompression
  | webpQuality
deriving DecidableEq, Repr

/-- `lilliput.ImageOptions` as built by `resize`. -/
structure ImageOptions where
  fileType : String
  width : Int
  height : Int
  resizeMethod : ResizeMethod
  normalizeOrientation : Bool
  encodeOptions : List (OptionKey × Nat)
deriving DecidableEq, Repr

/-- The package-level `EncodeOptions` table from `main.go` lines 17–21,
with Go's missing-key map lookup yielding the empty option set. -/
def EncodeOptions (ext : String) : List (OptionKey × Nat) :=
  if ext = ".jpeg" then [(.jpegQuality, 85)]
  else if ext = ".png" then [(.pngCompression, 7)]
  else if ext = ".webp" then [(.webpQuality, 85)]
  else []

/-- Image header metadata as returned by `decoder.Header()`. -/
structure ImageHeader where
  width : Int
  height : Int
deriving DecidableEq, Repr

/-- A decoder handle created by `lilliput.NewDecoder`: its format
description, what `Header()` would return, and the animation duration. -/
structure DecoderState where
  description : String
  headerResult : Res ImageHeader
  duration : Nat
deriving DecidableEq, Repr

/-- Per-invocation environment: the flag values and the oracles for each
external call the invocation may make. -/
structure Env where
  inputFilename : String
  remoteInput : String
  outputFilename : String
  outputWidth : Int
  outputHeight : Int
  stretch : Bool
  /-- outcome of `ioutil.ReadFile(inputFilename)` -/
  readFile : Res Bytes
  /-- outcome of `client.Get(remoteInput)` -/
  fetch : FetchOutcome
  /-- outcome of `lilliput.NewDecoder(inputBuf)` -/
  newDecoder : Res DecoderState
  /-- outcome of `ops.Transform(decoder, opts, outputImg)` -/
  transformResult : Res Bytes
  /-- value of `os.IsNotExist(err)` for `os.Stat(outputFilename)`:
  `true` means the output file does not already exist -/
  statNotExist : Bool
  /-- outcome of `ioutil.WriteFile(outputFilename, outputImg, 0400)` -/
  writeResult : Res Unit
deriving Repr

/-- Observable side effects of one invocation, in order. -/
inductive Event where
  | usageMsg
  | readFileEv (path : String)
  | httpGet (url : String)
  | readAllBody (ok : Bool)
  | closeBody
  | newDecoderEv (buf : Bytes)
  | decoderClose
  | readHeader
  | opsCreate
  | opsClose
  | transformEv (opts : ImageOptions)
  | statFile (name : String)
  | writeFileEv (name : String) (data : Bytes)
deriving DecidableEq, Repr

/-- How one invocation of `resize` ended, by returning step. -/
inductive Outcome where
  | usageError
  | readFileError (msg : String)
  | remoteError (msg : String)
  | decodeError (msg : String)
  | headerError (msg : String)
  | transformError (msg : String)
  | outputExists (name : String)
  | writeError (msg : String)
  | done (name : String)
deriving DecidableEq, Repr

/-- The byte-suffix of `cs` strictly after its last occurrence of `sep`
(the whole list when `sep` is absent). -/
def afterLastSep (sep : Char) : List Char → List Char
  | [] => []
  | c :: rest =>
    if rest.contains sep then afterLastSep sep rest
    else if c = sep then rest
    else c :: rest

/-- The byte-suffix of `cs` from its last occurrence of `sep` inclusive
(empty when `sep` is absent). -/
def fromLastSep (sep : Char) : List Char → List Char
  | [] => []
  | c :: rest =>
    if rest.contains sep then fromLastSep sep rest
    else if c = sep then c :: rest
    else []

/-- Go's `filepath.Ext`: the suffix beginning at the final dot in the
final slash-separated element of `path`; empty when that element has no
dot. -/
def filepathExt (path : String) : String :=
  String.mk (fromLastSep '.' (afterLastSep '/' path.data))

/-- `readRemoteURL` from `main.go` lines 168–183: issue the GET; if a
response object exists, defer closing its body; on a nil-response error
return it; otherwise read the whole body and return it, propagating a
body-read error. The deferred close fires on every return path on which
it was registered. -/
def readRemoteURL (url : String) (f : FetchOutcome) : Res Bytes × List Event :=
  match f with
  | .transportError msg => (.err msg, [.httpGet url])
  | .errorWithResponse _ msg => (.err msg, [.httpGet url, .closeBody])
  | .success resp =>
    match resp.body with
    | .fail msg => (.err msg, [.httpGet url, .readAllBody false, .closeBody])
    | .ok bytes => (.ok bytes, [.httpGet url, .readAllBody true, .closeBody])

/-- The local `outputFilename` of `resize` (`main.go` line 54), which
shadows the flag: `fmt.Sprint(i, "-", outputFilename)` concatenates with
no separating spaces because the operands adjacent to the int are
strings. -/
def outNameOf (i : Nat) (env : Env) : String :=
  toString i ++ "-" ++ env.outputFilename

/-- Go's `strings.ToLower` restricted to the ASCII format descriptions
lilliput produces ("JPEG", "PNG", "WEBP", "GIF", "MOV", "MP4"). -/
def lowerString (s : String) : String :=
  String.mk (s.data.map Char.toLower)

/-- The `lilliput.ImageOptions` value built in `main.go` lines 113–140:
output type from the local output filename's extension when that name is
non-empty, else a dot plus the lowercased decoder description;
width/height of 0 replaced by the header's; `Fit` unless `-stretch`. -/
def optsOf (i : Nat) (env : Env) (dec : DecoderState) (hdr : ImageHeader) :
    ImageOptions :=
  let outName := outNameOf i env
  let outputType0 := "." ++ lowerString dec.description
  let outputType := if outName ≠ "" then filepathExt outName else outputType0
  { fileType := outputType,
    width := if env.outputWidth = 0 then hdr.width else env.outputWidth,
    height := if env.outputHeight = 0 then hdr.height else env.outputHeight,
    resizeMethod := if env.stretch then .resize else .fit,
    normalizeOrientation := true,
    encodeOptions := EncodeOptions outputType }

/-- The filename used for the existence check and the write
(`main.go` lines 149–152): the local output filename, or the fallback
`"resized" + Ext(inputFilename)` when that local name is empty. -/
def finalNameOf (i : Nat) (env : Env) : String :=
  if outNameOf i env = "" then "resized" ++ filepathExt env.inputFilename
  else outNameOf i env

/-- `main.go` lines 80–166: the stages of `resize` from `NewDecoder`
onward, given the acquired input buffer. Deferred `ops.Close()` and
`decoder.Close()` fire in LIFO order on every return path reached after
their registration. -/
def resizeCore (i : Nat) (env : Env) (inputBuf : Bytes) : Outcome × List Event :=
  match env.newDecoder with
  | .err m => (.decodeError m, [.newDecoderEv inputBuf])
  | .ok dec =>
    match dec.headerResult with
    | .err m =>
      (.headerError m, [.newDecoderEv inputBuf, .readHeader, .decoderClose])
    | .ok hdr =>
      let evs2 :=
        [.newDecoderEv inputBuf, .readHeader, .opsCreate,
          .transformEv (optsOf i env dec hdr)]
      match env.transformResult with
      | .err m => (.transformError m, evs2 ++ [.opsClose, .decoderClose])
      | .ok outputImg =>
        if ¬ env.statNotExist then
          (.outputExists (finalNameOf i env),
            evs2 ++ [.statFile (finalNameOf i env), .opsClose, .decoderClose])
        else
          match env.writeResult with
          | .err m =>
            (.writeError m,
              evs2 ++ [.statFile (finalNameOf i env),
                .writeFileEv (finalNameOf i env) outputImg, .opsClose,
                .decoderClose])
          | .ok _ =>
            (.done (finalNameOf i env),
              evs2 ++ [.statFile (finalNameOf i env),
                .writeFileEv (finalNameOf i env) outputImg, .opsClose,
                .decoderClose])

/-- `resize` from `main.go` lines 51–166, one invocation of worker `i`:
the usage check and acquisition (lines 56–78), then `resizeCore`. The
local-path branch is tested first, so a non-empty `inputFilename` wins
over `remoteInput`. -/
def resize (i : Nat) (env : Env) : Outcome × List Event :=
  if env.inputFilename = "" ∧ env.remoteInput = "" then
    (.usageError, [.usageMsg])
  else if env.inputFilename ≠ "" then
    match env.readFile with
    | .err m => (.readFileError m, [.readFileEv env.inputFilename])
    | .ok inputBuf =>
      let r := resizeCore i env inputBuf
      (r.1, .readFileEv env.inputFilename :: r.2)
  else
    match readRemoteURL env.remoteInput env.fetch with
    | (.err m, evs) => (.remoteError m, evs)
    | (.ok inputBuf, evs) =>
      let r := resizeCore i env inputBuf
      (r.1, evs ++ r.2)

/-- Pipeline step index of an observable event: 0 usage check, 1
acquisition, 2 detection, 3 header read, 4 transform, 5 output write;
`none` for resource-teardown events. -/
def stepIdx : Event → Option Nat
  | .usageMsg => some 0
  | .readFileEv _ => some 1
  | .httpGet _ => some 1
  | .readAllBody _ => some 1
  | .closeBody => some 1
  | .newDecoderEv _ => some 2
  | .readHeader => some 3
  | .opsCreate => none
  | .opsClose => none
  | .decoderClose => none
  | .transformEv _ => some 4
  | .statFile _ => some 5
  | .writeFileEv _ _ => some 5

/-- The pipeline step at which an invocation ended (5 for the output
stage, reached or completed). -/
def outcomeStep : Outcome → Nat
  | .usageError => 0
  | .readFileError _ => 1
  | .remoteError _ => 1
  | .decodeError _ => 2
  | .headerError _ => 3
  | .transformError _ => 4
  | .outputExists _ => 5
  | .writeError _ => 5
  | .done _ => 5

/-- Whether `client.Get` produced a non-nil `*http.Response`. -/
def hasResponse : FetchOutcome → Bool
  | .transportError _ => false
  | .errorWithResponse _ _ => true
  | .success _ => true


def pngHdr : ImageHeader := { width := 640, height := 480 }

def pngDec : DecoderState :=
  { description := "PNG", headerResult := .ok pngHdr, duration := 0 }

def envLocal : Env :=
  { inputFilename := "in.png", remoteInput := "http://example.com/b.png",
    outputFilename := "out.jpeg", outputWidth := 0, outputHeight := 0,
    stretch := false, readFile := .ok [3, 4], fetch := .transportError "unused",
    newDecoder := .ok pngDec, transformResult := .ok [7, 8],
    statNotExist := true, writeResult := .ok () }

def envUsage : Env :=
  { envLocal with
    inputFilename := "", remoteInput := "" }

def envRemote : Env :=
  { envLocal with
    inputFilename := "", outputFilename := "out.png",
    fetch := .success { statusCode := 200, body := .ok [5, 6] } }

def env404 : Env :=
  { envLocal with
    inputFilename := "", outputFilename := "out.png",
    fetch := .success { statusCode := 404, body := .ok [10, 20] },
    newDecoder := .err "Unknown image type" }

def jpegDec : DecoderState :=
  { description := "JPEG",
    headerResult := .ok { width := 4000, height := 3000 }, duration := 0 }

def envC2 : Env :=
  { envLocal with
    inputFilename := "in.jpg", remoteInput := "",
    outputFilename := "",
    newDecoder := .ok jpegDec,
    transformResult := .ok [9] }

def fetchRedirectErr : FetchOutcome :=
  .errorWithResponse { statusCode := 302, body := .ok [0] }
    "stopped after 10 redirects"

def fetchOk200 : FetchOutcome :=
  .success { statusCode := 200, body := .ok [5, 6] }

def emptyTypeOpts : ImageOptions :=
  { fileType := "", width := 4000, height := 3000,
    resizeMethod := .fit, normalizeOrientation := true, encodeOptions := [] }

theorem outNameOf_ne_empty (i : Nat) (env : Env) : outNameOf i env ≠ "" := by
  intro h
  have h1 : (outNameOf i env).length = 0 := by rw [h]; rfl
  simp [outNameOf, String.length_append] at h1
  exact absurd h1.1.2 (by decide)

theorem finalNameOf_eq (i : Nat) (env : Env) :
    finalNameOf i env = outNameOf i env := by
  simp [finalNameOf, outNameOf_ne_empty]

theorem resizeCore_shape (i : Nat) (env : Env) (b : Bytes) :
    (∃ m, env.newDecoder = .err m ∧
      resizeCore i env b = (.decodeError m, [.newDecoderEv b])) ∨
    (∃ dec m, env.newDecoder = .ok dec ∧ dec.headerResult = .err m ∧
      resizeCore i env b =
        (.headerError m, [.newDecoderEv b, .readHeader, .decoderClose])) ∨
    (∃ dec hdr, env.newDecoder = .ok dec ∧ dec.headerResult = .ok hdr ∧
      ((∃ m, env.transformResult = .err m ∧
        resizeCore i env b = (.transformError m,
          [.newDecoderEv b, .readHeader, .opsCreate,
            .transformEv (optsOf i env dec hdr), .opsClose, .decoderClose])) ∨
      (∃ ob, env.transformResult = .ok ob ∧
        ((env.statNotExist = false ∧
          resizeCore i env b = (.outputExists (finalNameOf i env),
            [.newDecoderEv b, .readHeader, .opsCreate,
              .transformEv (optsOf i env dec hdr), .statFile (finalNameOf i env),
              .opsClose, .decoderClose])) ∨
        (env.statNotExist = true ∧ ∃ m, env.writeResult = .err m ∧
          resizeCore i env b = (.writeError m,
            [.newDecoderEv b, .readHeader, .opsCreate,
              .transformEv (optsOf i env dec hdr), .statFile (finalNameOf i env),
              .writeFileEv (finalNameOf i env) ob, .opsClose, .decoderClose])) ∨
        (env.statNotExist = true ∧ env.writeResult = .ok () ∧
          resizeCore i env b = (.done (finalNameOf i env),
            [.newDecoderEv b, .readHeader, .opsCreate,
              .transformEv (optsOf i env dec hdr), .statFile (finalNameOf i env),
              .writeFileEv (finalNameOf i env) ob, .opsClose, .decoderClose])))))) := by
  rcases hnd : env.newDecoder with dec | m
  · rcases hh : dec.headerResult with hdr | m
    · rcases htr : env.transformResult with ob | m
      · rcases hs : env.statNotExist
        · refine Or.inr (Or.inr ⟨dec, hdr, rfl, hh, Or.inr ⟨ob, rfl, Or.inl ⟨rfl, ?_⟩⟩⟩)
          simp [resizeCore, hnd, hh, htr, hs]
        · rcases hwr : env.writeResult with u | m
          · refine Or.inr (Or.inr ⟨dec, hdr, rfl, hh, Or.inr ⟨ob, rfl, Or.inr (Or.inr ⟨rfl, ?_⟩)⟩⟩)
            simp [resizeCore, hnd, hh, htr, hs, hwr]
          · refine Or.inr (Or.inr ⟨dec, hdr, rfl, hh, Or.inr ⟨ob, rfl, Or.inr (Or.inl ⟨rfl, m, rfl, ?_⟩)⟩⟩)
            simp [resizeCore, hnd, hh, htr, hs, hwr]
      · refine Or.inr (Or.inr ⟨dec, hdr, rfl, hh, Or.inl ⟨m, rfl, ?_⟩⟩)
        simp [resizeCore, hnd, hh, htr]
    · refine Or.inr (Or.inl ⟨dec, m, rfl, hh, ?_⟩)
      simp [resizeCore, hnd, hh]
  · exact Or.inl ⟨m, rfl, by simp [resizeCore, hnd]⟩


theorem resize_shape (i : Nat) (env : Env) :
    (env.inputFilename = "" ∧ env.remoteInput = "" ∧
      resize i env = (.usageError, [.usageMsg])) ∨
    (env.inputFilename ≠ "" ∧ ∃ m, env.readFile = .err m ∧
      resize i env = (.readFileError m, [.readFileEv env.inputFilename])) ∨
    (env.inputFilename ≠ "" ∧ ∃ b, env.readFile = .ok b ∧
      resize i env = ((resizeCore i env b).1,
        .readFileEv env.inputFilename :: (resizeCore i env b).2)) ∨
    (env.inputFilename = "" ∧ env.remoteInput ≠ "" ∧
      ((∃ m, env.fetch = .transportError m ∧
        resize i env = (.remoteError m, [.httpGet env.remoteInput])) ∨
      (∃ resp m, env.fetch = .errorWithResponse resp m ∧
        resize i env = (.remoteError m,
          [.httpGet env.remoteInput, .closeBody])) ∨
      (∃ st m, env.fetch = .success { statusCode := st, body := .fail m } ∧
        resize i env = (.remoteError m,
          [.httpGet env.remoteInput, .readAllBody false, .closeBody])) ∨
      (∃ st b, env.fetch = .success { statusCode := st, body := .ok b } ∧
        resize i env = ((resizeCore i env b).1,
          .httpGet env.remoteInput :: .readAllBody true :: .closeBody ::
            (resizeCore i env b).2)))) := by
  by_cases hin : env.inputFilename = ""
  · by_cases hrem : env.remoteInput = ""
    · exact Or.inl ⟨hin, hrem, by simp [resize, hin, hrem]⟩
    · refine Or.inr (Or.inr (Or.inr ⟨hin, hrem, ?_⟩))
      rcases hf : env.fetch with m | ⟨resp, m⟩ | resp
      · exact Or.inl ⟨m, rfl, by simp [resize, readRemoteURL, hin, hrem, hf]⟩
      · exact Or.inr (Or.inl ⟨resp, m, rfl,
          by simp [resize, readRemoteURL, hin, hrem, hf]⟩)
      · rcases hb : resp.body with bytes | m
        · refine Or.inr (Or.inr (Or.inr ⟨resp.statusCode, bytes, ?_, ?_⟩))
          · cases resp
            simp_all
          · simp [resize, readRemoteURL, hin, hrem, hf, hb]
        · refine Or.inr (Or.inr (Or.inl ⟨resp.statusCode, m, ?_, ?_⟩))
          · cases resp
            simp_all
          · simp [resize, readRemoteURL, hin, hrem, hf, hb]
  · rcases hrf : env.readFile with b | m
    · exact Or.inr (Or.inr (Or.inl ⟨hin, b, rfl, by simp [resize, hin, hrf]⟩))
    · exact Or.inr (Or.inl ⟨hin, m, rfl, by simp [resize, hin, hrf]⟩)


theorem resizeCore_newDecoderEv (i : Nat) (env : Env) (b : Bytes) :
    Event.newDecoderEv b ∈ (resizeCore i env b).2 := by
  rcases resizeCore_shape i env b with ⟨m, _, h⟩ | ⟨dec, m, _, _, h⟩ |
    ⟨dec, hdr, _, _, ⟨m, _, h⟩ | ⟨ob, _, ⟨_, h⟩ | ⟨_, m, _, h⟩ | ⟨_, _, h⟩⟩⟩ <;>
    simp [h]

theorem resizeCore_no_acquisition_events (i : Nat) (env : Env) (b : Bytes) :
    (∀ u, Event.httpGet u ∉ (resizeCore i env b).2) ∧
    (∀ p, Event.readFileEv p ∉ (resizeCore i env b).2) := by
  rcases resizeCore_shape i env b with ⟨m, _, h⟩ | ⟨dec, m, _, _, h⟩ |
    ⟨dec, hdr, _, _, ⟨m, _, h⟩ | ⟨ob, _, ⟨_, h⟩ | ⟨_, m, _, h⟩ | ⟨_, _, h⟩⟩⟩ <;>
    simp [h]

theorem resizeCore_decoderClose (i : Nat) (env : Env) (b : Bytes)
    (dec : DecoderState) (hd : env.newDecoder = .ok dec) :
    Event.decoderClose ∈ (resizeCore i env b).2 := by
  rcases resizeCore_shape i env b with ⟨m, hnd, h⟩ | ⟨dec', m, _, _, h⟩ |
    ⟨dec', hdr, _, _, ⟨m, _, h⟩ | ⟨ob, _, ⟨_, h⟩ | ⟨_, m, _, h⟩ | ⟨_, _, h⟩⟩⟩ <;>
    first
    | (rw [hd] at hnd; cases hnd)
    | simp [h]

theorem resizeCore_statFile_name (i : Nat) (env : Env) (b : Bytes) :
    ∀ n, Event.statFile n ∈ (resizeCore i env b).2 → n = finalNameOf i env := by
  intro n hmem
  rcases resizeCore_shape i env b with ⟨m, _, h⟩ | ⟨dec, m, _, _, h⟩ |
    ⟨dec, hdr, _, _, ⟨m, _, h⟩ | ⟨ob, _, ⟨_, h⟩ | ⟨_, m, _, h⟩ | ⟨_, _, h⟩⟩⟩ <;>
    (rw [h] at hmem; simp at hmem) <;> exact hmem

theorem resizeCore_writeFile_gated (i : Nat) (env : Env) (b : Bytes) :
    ∀ n d, Event.writeFileEv n d ∈ (resizeCore i env b).2 →
      n = finalNameOf i env ∧ env.transformResult = .ok d := by
  intro n d hmem
  rcases resizeCore_shape i env b with ⟨m, _, h⟩ | ⟨dec, m, _, _, h⟩ |
    ⟨dec, hdr, _, _, ⟨m, _, h⟩ | ⟨ob, hob, ⟨_, h⟩ | ⟨_, m, hwr, h⟩ | ⟨_, hwr, h⟩⟩⟩ <;>
    (rw [h] at hmem; simp at hmem) <;>
    exact ⟨hmem.1, by rw [hmem.2]; exact hob⟩


/-- Claim C10: in every invocation of worker `i`, the filename used for
the existence check and for the write is the concatenation of `i`, `"-"`
and the caller-supplied output name, and is therefore never empty — so
the fallback branch deriving `"resized" + Ext(inputFilename)` never runs. -/
theorem worker_filename_prefixed (i : Nat) (env : Env) :
    (∀ n, Event.statFile n ∈ (resize i env).2 →
      n = toString i ++ "-" ++ env.outputFilename ∧ n ≠ "") ∧
    (∀ n d, Event.writeFileEv n d ∈ (resize i env).2 →
      n = toString i ++ "-" ++ env.outputFilename ∧ n ≠ "") := by
  have hkey : ∀ n : String, n = finalNameOf i env →
      n = toString i ++ "-" ++ env.outputFilename ∧ n ≠ "" := by
    intro n hn
    rw [hn, finalNameOf_eq]
    exact ⟨rfl, outNameOf_ne_empty i env⟩
  rcases resize_shape i env with ⟨_, _, h⟩ | ⟨_, m, _, h⟩ | ⟨_, b, _, h⟩ |
    ⟨_, _, ⟨m, _, h⟩ | ⟨resp, m, _, h⟩ | ⟨st, m, _, h⟩ | ⟨st, b, _, h⟩⟩ <;>
    rw [h] <;>
    constructor <;>
    intro n
  · simp
  · intro d; simp
  · simp
  · intro d; simp
  · intro hmem
    simp at hmem
    exact hkey n (resizeCore_statFile_name i env b n hmem)
  · intro d hmem
    simp at hmem
    exact hkey n (resizeCore_writeFile_gated i env b n d hmem).1
  · simp
  · intro d; simp
  · simp
  · intro d; simp
  · simp
  · intro d; simp
  · intro hmem
    simp at hmem
    exact hkey n (resizeCore_statFile_name i env b n hmem)
  · intro d hmem
    simp at hmem
    exact hkey n (resizeCore_writeFile_gated i env b n d hmem).1

/-- Claim C6: whenever detection succeeded (a decoder handle was
created, witnessed by the `newDecoderEv` event with a successful
`newDecoder` oracle), the decoder is closed on every exit path of the
invocation, before it returns. -/
theorem decoder_released_on_every_path (i : Nat) (env : Env)
    (dec : DecoderState) (b : Bytes)
    (hd : env.newDecoder = .ok dec)
    (hreach : Event.newDecoderEv b ∈ (resize i env).2) :
    Event.decoderClose ∈ (resize i env).2 := by
  rcases resize_shape i env with ⟨_, _, h⟩ | ⟨_, m, _, h⟩ | ⟨_, b', _, h⟩ |
    ⟨_, _, ⟨m, _, h⟩ | ⟨resp, m, _, h⟩ | ⟨st, m, _, h⟩ | ⟨st, b', _, h⟩⟩ <;>
    rw [h] at hreach ⊢ <;> simp at hreach ⊢
  · exact resizeCore_decoderClose i env b' dec hd
  · exact resizeCore_decoderClose i env b' dec hd

/-- Claim C9: when both a local input path and a remote URL are
provided, the invocation is not rejected as a usage error: the local
file is read and used as the input blob, and no HTTP request is issued. -/
theorem local_input_wins (i : Nat) (env : Env)
    (h1 : env.inputFilename ≠ "") (h2 : env.remoteInput ≠ "") :
    Event.readFileEv env.inputFilename ∈ (resize i env).2 ∧
    (∀ u, Event.httpGet u ∉ (resize i env).2) ∧
    (∀ b, env.readFile = .ok b → Event.newDecoderEv b ∈ (resize i env).2) := by
  rcases resize_shape i env with ⟨hin, _, h⟩ | ⟨_, m, hrf, h⟩ | ⟨_, b, hrf, h⟩ |
    ⟨hin, _, _⟩
  · exact absurd hin h1
  · rw [h]
    refine ⟨by simp, by simp, ?_⟩
    intro b hb
    rw [hrf] at hb
    cases hb
  · rw [h]
    refine ⟨by simp, ?_, ?_⟩
    · intro u
      simp
      exact (resizeCore_no_acquisition_events i env b).1 u
    · intro b' hb
      rw [hrf] at hb
      cases hb
      simp
      exact resizeCore_newDecoderEv i env b
  · exact absurd hin h1

/-- Claim C3: for every invocation that reaches geometry resolution, a
requested width of 0 defaults to the header's width and a requested
height of 0 independently defaults to the header's height; with both 0
the target geometry equals the source geometry. -/
theorem zero_dims_default_to_source (i : Nat) (env : Env) (b : Bytes)
    (dec : DecoderState) (hdr : ImageHeader)
    (hd : env.newDecoder = .ok dec) (hh : dec.headerResult = .ok hdr) :
    Event.transformEv (optsOf i env dec hdr) ∈ (resizeCore i env b).2 ∧
    (env.outputWidth = 0 → (optsOf i env dec hdr).width = hdr.width) ∧
    (env.outputWidth ≠ 0 → (optsOf i env dec hdr).width = env.outputWidth) ∧
    (env.outputHeight = 0 → (optsOf i env dec hdr).height = hdr.height) ∧
    (env.outputHeight ≠ 0 → (optsOf i env dec hdr).height = env.outputHeight) ∧
    (env.outputWidth = 0 ∧ env.outputHeight = 0 →
      (optsOf i env dec hdr).width = hdr.width ∧
      (optsOf i env dec hdr).height = hdr.height) := by
  have hmem : Event.transformEv (optsOf i env dec hdr) ∈ (resizeCore i env b).2 := by
    rcases resizeCore_shape i env b with ⟨m, hnd, h⟩ | ⟨dec', m, hnd, hh', h⟩ |
      ⟨dec', hdr', hnd, hh', hrest⟩
    · rw [hd] at hnd; cases hnd
    · rw [hd] at hnd
      injection hnd with he
      rw [← he, hh] at hh'
      cases hh'
    · rw [hd] at hnd
      injection hnd with he
      subst he
      rw [hh] at hh'
      injection hh' with he'
      subst he'
      rcases hrest with ⟨m, _, h⟩ | ⟨ob, _, ⟨_, h⟩ | ⟨_, m, _, h⟩ | ⟨_, _, h⟩⟩ <;>
        simp [h]
  refine ⟨hmem, ?_, ?_, ?_, ?_, ?_⟩
  · intro hw; simp [optsOf, hw]
  · intro hw; simp [optsOf, hw]
  · intro hh0; simp [optsOf, hh0]
  · intro hh0; simp [optsOf, hh0]
  · rintro ⟨hw, hh0⟩; simp [optsOf, hw, hh0]


theorem resizeCore_sequential (i : Nat) (env : Env) (b : Bytes) :
    List.Chain' (· ≤ ·) ((resizeCore i env b).2.filterMap stepIdx) ∧
    (∀ s ∈ (resizeCore i env b).2.filterMap stepIdx,
      2 ≤ s ∧ s ≤ outcomeStep (resizeCore i env b).1) ∧
    2 ≤ outcomeStep (resizeCore i env b).1 ∧
    (∀ n d, Event.writeFileEv n d ∈ (resizeCore i env b).2 →
      env.transformResult = .ok d) := by
  rcases resizeCore_shape i env b with ⟨m, _, h⟩ | ⟨dec, m, _, _, h⟩ |
    ⟨dec, hdr, _, _, ⟨m, _, h⟩ | ⟨ob, hob, ⟨_, h⟩ | ⟨_, m, _, h⟩ | ⟨_, _, h⟩⟩⟩ <;>
    rw [h] <;>
    simp [stepIdx, outcomeStep] <;>
    exact hob


/-- Claim C5: within every invocation the steps acquire, detect, read
header, transform, write run in strictly nondecreasing step order; no
event of a step later than the failing step occurs; and a file write
happens only with the exact blob a successful transform produced. -/
theorem pipeline_sequential (i : Nat) (env : Env) :
    List.Chain' (· ≤ ·) ((resize i env).2.filterMap stepIdx) ∧
    (∀ s ∈ (resize i env).2.filterMap stepIdx,
      s ≤ outcomeStep (resize i env).1) ∧
    (∀ n d, Event.writeFileEv n d ∈ (resize i env).2 →
      env.transformResult = .ok d) := by
  rcases resize_shape i env with ⟨_, _, h⟩ | ⟨_, m, _, h⟩ | ⟨_, b, _, h⟩ |
    ⟨_, _, ⟨m, _, h⟩ | ⟨resp, m, _, h⟩ | ⟨st, m, _, h⟩ | ⟨st, b, _, h⟩⟩
  · rw [h]; simp [stepIdx, outcomeStep]
  · rw [h]; simp [stepIdx, outcomeStep]
  · obtain ⟨hch, hbound, hstep2, hwf⟩ := resizeCore_sequential i env b
    rw [h]
    refine ⟨?_, ?_, ?_⟩
    · simp only [stepIdx, List.filterMap_cons]
      rw [List.chain'_cons']
      refine ⟨?_, hch⟩
      intro y hy
      have hmem := List.mem_of_mem_head? hy
      exact le_trans (by norm_num) (hbound y hmem).1
    · simp only [stepIdx, List.filterMap_cons]
      intro s hs
      rcases List.mem_cons.mp hs with rfl | hs'
      · exact le_trans (by norm_num) hstep2
      · exact (hbound s hs').2
    · intro n d hmem
      simp at hmem
      exact hwf n d hmem
  · rw [h]; simp [stepIdx, outcomeStep]
  · rw [h]; simp [stepIdx, outcomeStep]
  · rw [h]; simp [stepIdx, outcomeStep]
  · obtain ⟨hch, hbound, hstep2, hwf⟩ := resizeCore_sequential i env b
    rw [h]
    refine ⟨?_, ?_, ?_⟩
    · simp only [stepIdx, List.filterMap_cons]
      rw [List.chain'_cons', List.chain'_cons', List.chain'_cons']
      refine ⟨by simp, by simp, ?_, hch⟩
      intro y hy
      have hmem := List.mem_of_mem_head? hy
      exact le_trans (by norm_num) (hbound y hmem).1
    · simp only [stepIdx, List.filterMap_cons]
      intro s hs
      rcases List.mem_cons.mp hs with rfl | hs'
      · exact le_trans (by norm_num) hstep2
      · rcases List.mem_cons.mp hs' with rfl | hs''
        · exact le_trans (by norm_num) hstep2
        · rcases List.mem_cons.mp hs'' with rfl | hs3
          · exact le_trans (by norm_num) hstep2
          · exact (hbound s hs3).2
    · intro n d hmem
      simp at hmem
      exact hwf n d hmem


/-- Claim C4: when neither a local input path nor a remote URL is
provided, the invocation reports a usage error and returns before any
file read or network request. -/
theorem usage_error_no_io (i : Nat) (env : Env)
    (h1 : env.inputFilename = "") (h2 : env.remoteInput = "") :
    (resize i env).1 = .usageError ∧ (resize i env).2 = [.usageMsg] ∧
    (∀ p, Event.readFileEv p ∉ (resize i env).2) ∧
    (∀ u, Event.httpGet u ∉ (resize i env).2) := by
  simp [resize, h1, h2]

/-- Claim C8: encode-parameter selection is the fixed table
`.jpeg` to quality 85, `.png` to compression level 7, `.webp` to
quality 85, and every other extension yields the empty option set
(selection is total, it never fails). -/
theorem encode_options_fixed_table :
    EncodeOptions ".jpeg" = [(.jpegQuality, 85)] ∧
    EncodeOptions ".png" = [(.pngCompression, 7)] ∧
    EncodeOptions ".webp" = [(.webpQuality, 85)] ∧
    ∀ s, s ≠ ".jpeg" → s ≠ ".png" → s ≠ ".webp" → EncodeOptions s = [] := by
  refine ⟨rfl, rfl, rfl, ?_⟩
  intro s hj hp hw
  simp [EncodeOptions, hj, hp, hw]

theorem encode_options_fixed_table_witness :
    EncodeOptions ".gif" = [] :=
  encode_options_fixed_table.2.2.2 ".gif" (by decide) (by decide) (by decide)

/-- Claim C1, counterexample: a remote fetch that completes with HTTP
status 404 is not turned into an acquisition failure — `readRemoteURL`
returns the 404 body bytes and `resize` passes them to the format
detector, which is where the failure finally surfaces. -/
theorem remote_404_body_reaches_detector :
    (resize 7 env404).1 = .decodeError "Unknown image type" ∧
    Event.newDecoderEv [10, 20] ∈ (resize 7 env404).2 := by decide

/-- Claim C1, amended: a remote fetch failing with a transport error
makes the invocation return a remote acquisition error and halts before
detection (no buffer reaches the detector); but a fetch that completes
is accepted for every status code — its body bytes are always passed to
the detector. -/
theorem remote_fetch_error_halts_but_status_ignored (i : Nat) (env : Env)
    (hi : env.inputFilename = "") (hr : env.remoteInput ≠ "") :
    (∀ m, env.fetch = .transportError m →
      (resize i env).1 = .remoteError m ∧
      ∀ b, Event.newDecoderEv b ∉ (resize i env).2) ∧
    (∀ st body, env.fetch = .success { statusCode := st, body := .ok body } →
      Event.newDecoderEv body ∈ (resize i env).2) := by
  rcases resize_shape i env with ⟨hin, hrem, h⟩ | ⟨hin, m, hrf, h⟩ |
    ⟨hin, b, hrf, h⟩ |
    ⟨hin, hrem, ⟨m, hf, h⟩ | ⟨resp, m, hf, h⟩ | ⟨st', m', hf, h⟩ |
      ⟨st', b', hf, h⟩⟩
  · exact absurd hrem hr
  · exact absurd hi hin
  · exact absurd hi hin
  · constructor
    · intro m2 hm
      rw [hf] at hm
      injection hm with hmm
      subst hmm
      rw [h]
      exact ⟨rfl, by simp⟩
    · intro st body hs
      rw [hf] at hs
      cases hs
  · constructor
    · intro m2 hm
      rw [hf] at hm
      cases hm
    · intro st body hs
      rw [hf] at hs
      cases hs
  · constructor
    · intro m2 hm
      rw [hf] at hm
      cases hm
    · intro st body hs
      rw [hf] at hs
      simp only [FetchOutcome.success.injEq, HttpResponse.mk.injEq] at hs
      cases hs.2
  · constructor
    · intro m2 hm
      rw [hf] at hm
      cases hm
    · intro st body hs
      rw [hf] at hs
      simp only [FetchOutcome.success.injEq, HttpResponse.mk.injEq,
        BodyReadOutcome.ok.injEq] at hs
      rw [h]
      rw [hs.2]
      simp
      exact resizeCore_newDecoderEv i env body

theorem remote_fetch_error_halts_but_status_ignored_witness :
    Event.newDecoderEv [5, 6] ∈ (resize 0 envRemote).2 :=
  (remote_fetch_error_halts_but_status_ignored 0 envRemote rfl
    (by decide)).2 200 [5, 6] rfl


/-- Claim C2, code evaluated at the failing input: with no `-output`
flag (empty output name), worker 0 and a JPEG input, the options passed
to `Transform` carry `FileType := ""` — `filepath.Ext` of the local name
`"0-"` — not the detected input format `".jpeg"` that the claim (and
the code's own comment) promises. -/
theorem no_output_flag_filetype_empty :
    envC2.outputFilename = "" ∧
    Event.transformEv emptyTypeOpts ∈ (resize 0 envC2).2 ∧
    "." ++ lowerString "JPEG" = ".jpeg" := by decide

/-- Claim C7, counterexample: on the exit path where `client.Get`
reports an error together with a non-nil response, the body is closed
but `ReadAll` is never invoked, so the body is not drained. -/
theorem response_error_closed_not_drained :
    hasResponse fetchRedirectErr = true ∧
    Event.closeBody ∈ (readRemoteURL "http://host/a.png" fetchRedirectErr).2 ∧
    (∀ ok, Event.readAllBody ok ∉
      (readRemoteURL "http://host/a.png" fetchRedirectErr).2) := by decide

/-- Claim C7, amended: on every exit path of the fetch on which a
response object exists the body is closed; it is fully drained (read to
EOF) exactly on the success path. -/
theorem body_closed_whenever_response_exists (url : String) (f : FetchOutcome)
    (h : hasResponse f = true) :
    Event.closeBody ∈ (readRemoteURL url f).2 ∧
    (∀ bytes, (readRemoteURL url f).1 = .ok bytes →
      Event.readAllBody true ∈ (readRemoteURL url f).2) := by
  rcases f with m | ⟨resp, m⟩ | ⟨st, bd⟩
  · simp [hasResponse] at h
  · simp [readRemoteURL]
  · rcases bd with bytes | m <;> simp [readRemoteURL]

theorem body_closed_whenever_response_exists_witness :
    Event.closeBody ∈ (readRemoteURL "http://example.com/b.png" fetchOk200).2 :=
  (body_closed_whenever_response_exists "http://example.com/b.png" fetchOk200
    rfl).1

theorem usage_error_no_io_witness :
    (resize 0 envUsage).1 = .usageError ∧
    (resize 0 envUsage).2 = [.usageMsg] :=
  ⟨(usage_error_no_io 0 envUsage rfl rfl).1,
    (usage_error_no_io 0 envUsage rfl rfl).2.1⟩

theorem zero_dims_default_to_source_witness :
    Event.transformEv (optsOf 0 envLocal pngDec pngHdr) ∈
      (resizeCore 0 envLocal [3, 4]).2 ∧
    (optsOf 0 envLocal pngDec pngHdr).width = pngHdr.width ∧
    (optsOf 0 envLocal pngDec pngHdr).height = pngHdr.height := by
  have hz := zero_dims_default_to_source 0 envLocal [3, 4] pngDec pngHdr rfl rfl
  exact ⟨hz.1, (hz.2.2.2.2.2 ⟨rfl, rfl⟩).1, (hz.2.2.2.2.2 ⟨rfl, rfl⟩).2⟩

theorem decoder_released_on_every_path_witness :
    Event.decoderClose ∈ (resize 0 envLocal).2 :=
  decoder_released_on_every_path 0 envLocal pngDec [3, 4] rfl (by decide)

theorem local_input_wins_witness :
    Event.readFileEv "in.png" ∈ (resize 0 envLocal).2 :=
  (local_input_wins 0 envLocal (by decide) (by decide)).1

theorem worker_filename_prefixed_witness :
    "0-out.jpeg" = toString 0 ++ "-" ++ envLocal.outputFilename ∧
    "0-out.jpeg" ≠ "" :=
  (worker_filename_prefixed 0 envLocal).1 "0-out.jpeg" (by decide)

theorem pipeline_sequential_witness :
    List.Chain' (· ≤ ·) ((resize 0 envLocal).2.filterMap stepIdx) :=
  (pipeline_sequential 0 envLocal).1


end LilliputExample
